import Mathlib

/-!
Verification development for the carrot-kpi defillama-answerer obligation
engine. The definitions below are shallow embeddings of the Rust source:
the durable state-store rows and their operations (`src/db/models.rs`),
the per-oracle answer procedure (`src/answerer.rs`), the acknowledgement
path (`src/scanner/commons.rs`), the listener checkpoint gating
(`src/listener.rs`), the tvl answer computation
(`src/specification/handlers/tvl.rs`) and the specification fetch retry
(`src/ipfs.rs`). Wall-clock instants are modelled as seconds since the
Unix epoch (`Nat`), addresses and hashes as numbers, 256-bit answers as
`Nat`, and fallible operations return `Option`, with `none` standing for
the panic or error the corresponding Rust code produces.
-/

namespace DefillamaAnswerer

/-- Payload of the `tvl` specification variant (`TvlPayload` in
`src/specification/handlers/tvl.rs`): the name of the protocol whose
total value locked is requested. -/
structure TvlPayload where
  protocol : String
deriving DecidableEq, Repr

/-- The tagged specification union (`Specification` in
`src/specification.rs`): a single variant `Tvl` today. -/
inductive Specification where
  | tvl (payload : TvlPayload)
deriving DecidableEq, Repr

/-- Mirror of the `active_oracles` row (`ActiveOracle` in
`src/db/models.rs`). `chain_id` is the stored `i32` value, timestamps are
seconds, `answer` is the 256-bit unsigned answer and `answer_tx_hash` the
32-byte transaction hash, both abstracted to numbers. -/
structure ActiveOracle where
  address : Nat
  chain_id : Int
  measurement_timestamp : Nat
  specification : Specification
  expiration : Option Nat
  answer_tx_hash : Option Nat
  answer : Option Nat
deriving DecidableEq, Repr

/-- Mirror of the `checkpoints` row (`Checkpoint` in `src/db/models.rs`):
`chain_id` is the stored `i32`, `block_number` the stored `i64`. -/
structure Checkpoint where
  chain_id : Int
  block_number : Int
deriving DecidableEq, Repr

/-- Model of `i32::try_from(chain_id).unwrap()` as used on `u64` chain ids
throughout `src/db/models.rs`: the conversion succeeds exactly for values
up to `i32::MAX = 2^31 - 1`; `none` models the `unwrap` panic. -/
def i32_try_from_u64 (chain_id : Nat) : Option Int :=
  if chain_id < 2 ^ 31 then some (Int.ofNat chain_id) else none

/-- Model of `ActiveOracle::create` (`src/db/models.rs`). The table is the
list of rows; the row is inserted with `expiration` populated and both
`answer_tx_hash` and `answer` null. Inserting a duplicate
`(address, chain_id)` primary key yields the unique-violation database
error (there is no `on_conflict` clause in the source); the outer `none`
models the chain-id `unwrap` panic. -/
def ActiveOracle.create (db : List ActiveOracle) (address : Nat) (chain_id : Nat)
    (measurement_timestamp : Nat) (specification : Specification) (expiration : Nat) :
    Option (Except String (ActiveOracle × List ActiveOracle)) :=
  match i32_try_from_u64 chain_id with
  | none => none
  | some cid =>
    let oracle : ActiveOracle :=
      ⟨address, cid, measurement_timestamp, specification, some expiration, none, none⟩
    if db.any fun row => row.address == address && row.chain_id == cid then
      some (Except.error "could not insert oracle into database")
    else
      some (Except.ok (oracle, db ++ [oracle]))

/-- Model of `ActiveOracle::get_all_answerable_for_chain_id`
(`src/db/models.rs`): filters the table to the rows of the chain whose
`measurement_timestamp` is strictly below the current time (the source
uses `.lt(SystemTime::now())`); `none` models the chain-id `unwrap`
panic. -/
def ActiveOracle.get_all_answerable_for_chain_id (db : List ActiveOracle)
    (chain_id : Nat) (now : Nat) : Option (List ActiveOracle) :=
  match i32_try_from_u64 chain_id with
  | none => none
  | some cid =>
    some (db.filter fun row =>
      row.chain_id == cid && decide (row.measurement_timestamp < now))

/-- Model of `Checkpoint::update` (`src/db/models.rs`): an upsert keyed by
`chain_id` (`on_conflict ... do_update`); `none` models the chain-id
`unwrap` panic. -/
def Checkpoint.update (db : List Checkpoint) (chain_id : Nat) (block_number : Int) :
    Option (List Checkpoint) :=
  match i32_try_from_u64 chain_id with
  | none => none
  | some cid =>
    if db.any fun c => c.chain_id == cid then
      some (db.map fun c => if c.chain_id == cid then ⟨cid, block_number⟩ else c)
    else
      some (db ++ [⟨cid, block_number⟩])

/-- Data gathered on chain for one oracle before acknowledgement
(`DefiLlamaOracleData` in `src/scanner/commons.rs`). -/
structure DefiLlamaOracleData where
  address : Nat
  measurement_timestamp : Nat
  specification_cid : String
  expiration : Nat
deriving DecidableEq, Repr

/-- Outcomes of the external effects performed by
`acknowledge_active_oracle` (`src/scanner/commons.rs`): the specification
fetched from IPFS (`none` when the retried fetch ultimately fails), the
validation verdict, whether a pool connection could be acquired, and the
web3.storage pinning leg. -/
structure AckEnv where
  fetched_specification : Option Specification
  validation_result : Bool
  db_conn_ok : Bool
  has_web3_storage : Bool
  pin_ok : Bool
deriving DecidableEq, Repr

/-- Result of one acknowledgement: whether the function returned `Ok(())`
and the table contents afterwards. -/
structure AckOutcome where
  ok : Bool
  db : List ActiveOracle
deriving DecidableEq, Repr

/-- Model of `acknowledge_active_oracle` (`src/scanner/commons.rs`): fetch
failure and validation failure are logged and swallowed (`Ok`), pool and
insert errors propagate with `?` (including the duplicate-key unique
violation from `ActiveOracle::create`), then the optional web3.storage pin
is awaited with `?`. The outer `none` models the chain-id panic inside
`create`. -/
def acknowledge_active_oracle (env : AckEnv) (chain_id : Nat)
    (data : DefiLlamaOracleData) (db : List ActiveOracle) : Option AckOutcome :=
  match env.fetched_specification with
  | none => some ⟨true, db⟩
  | some spec =>
    if !env.validation_result then some ⟨true, db⟩
    else if !env.db_conn_ok then some ⟨false, db⟩
    else
      match ActiveOracle.create db data.address chain_id data.measurement_timestamp
          spec data.expiration with
      | none => none
      | some (Except.error _) => some ⟨false, db⟩
      | some (Except.ok (_, db2)) =>
        if env.has_web3_storage then
          if env.pin_ok then some ⟨true, db2⟩ else some ⟨false, db2⟩
        else some ⟨true, db2⟩

/-- Result of `ContractCall::send` in the answer procedure. -/
inductive SubmitOutcome where
  | sent (tx_hash : Nat)
  | failed
deriving DecidableEq, Repr

/-- Outcomes of every external effect performed by `answer_active_oracle`
(`src/answerer.rs`), in program order: the current time, the chain read of
the expiration (`none` = error), the pool acquisitions and row updates of
each phase, the answer computed by `specification::answer` (`none` = no
answer this tick), transaction fill/submit/confirm, the receipt with its
gas fields and the formatting of the paid fee, the clearing of the tx
hash after a failed confirmation, and the final row deletion. -/
structure AnswerEnv where
  now : Nat
  fetched_expiration : Option Nat
  expiration_conn_ok : Bool
  update_expiration_ok : Bool
  expired_conn_ok : Bool
  delete_expired_ok : Bool
  computed_answer : Option Nat
  answer_conn_ok : Bool
  update_answer_ok : Bool
  fill_ok : Bool
  submit : SubmitOutcome
  tx_hash_conn_ok : Bool
  update_tx_hash_ok : Bool
  confirm_ok : Bool
  receipt : Option (Nat × Nat)
  format_ok : Bool
  clear_conn_ok : Bool
  clear_tx_hash_ok : Bool
  delete_conn_ok : Bool
  delete_ok : Bool
deriving DecidableEq, Repr

/-- Result of one run of the answer procedure on one oracle: whether it
returned `Ok(())`, the row state afterwards (`none` = row deleted), and
the list of `finalize` submissions actually sent to the chain. -/
structure AnswerOutcome where
  ok : Bool
  row : Option ActiveOracle
  submitted : List Nat
deriving DecidableEq, Repr

/-- Model of `is_active_oracle_expired` (`src/answerer.rs`): reuses the
stored expiration or fetches it from chain and persists it with
`update_expiration`; `none` models the propagated error (fetch, pool or
update failure), in which case the row is unchanged. -/
def is_active_oracle_expired (env : AnswerEnv) (row : ActiveOracle) :
    Option (Bool × ActiveOracle) :=
  match row.expiration with
  | some e => some (decide (e ≤ env.now), row)
  | none =>
    match env.fetched_expiration with
    | none => none
    | some e =>
      if env.expiration_conn_ok then
        if env.update_expiration_ok then
          some (decide (e ≤ env.now), { row with expiration := some e })
        else none
      else none

/-- Final part of `answer_active_oracle` (`src/answerer.rs`): after a
confirmed transaction the row is deleted; pool or delete failures are
logged and the function still returns `Ok`, leaving the row in place. -/
def delete_phase (env : AnswerEnv) (row : ActiveOracle) (submitted : List Nat) :
    AnswerOutcome :=
  if env.delete_conn_ok then
    if env.delete_ok then ⟨true, none, submitted⟩ else ⟨true, some row, submitted⟩
  else ⟨true, some row, submitted⟩

/-- Confirmation part of `answer_active_oracle` (`src/answerer.rs`): on a
confirmation error the tx hash is cleared with `delete_answer_tx_hash`,
and a pool or clear failure there propagates as a hard error (the row
keeps its tx hash); on success the fee is logged (a formatting failure
returns early without deleting the row) and the row is deleted. -/
def confirm_phase (env : AnswerEnv) (row : ActiveOracle) (submitted : List Nat) :
    AnswerOutcome :=
  if env.confirm_ok then
    match env.receipt with
    | some _ =>
      if env.format_ok then delete_phase env row submitted
      else ⟨true, some row, submitted⟩
    | none => delete_phase env row submitted
  else
    if env.clear_conn_ok then
      if env.clear_tx_hash_ok then
        ⟨true, some { row with answer_tx_hash := none }, submitted⟩
      else ⟨false, some row, submitted⟩
    else ⟨false, some row, submitted⟩

/-- Submission part of `answer_active_oracle` (`src/answerer.rs`): fill
the `finalize(answer)` call, send it, then persist the tx hash with
`update_answer_tx_hash` before awaiting confirmation; failures to fill or
send return early without a submission, failures to persist the hash
return early after the submission already went out. -/
def submit_phase (env : AnswerEnv) (row : ActiveOracle) (answer : Nat) :
    AnswerOutcome :=
  if env.fill_ok then
    match env.submit with
    | SubmitOutcome.failed => ⟨true, some row, []⟩
    | SubmitOutcome.sent h =>
      if env.tx_hash_conn_ok then
        if env.update_tx_hash_ok then
          confirm_phase env { row with answer_tx_hash := some h } [answer]
        else ⟨true, some row, [answer]⟩
      else ⟨true, some row, [answer]⟩
  else ⟨true, some row, []⟩

/-- Answer-computation part of `answer_active_oracle` (`src/answerer.rs`):
a stored answer is reused, otherwise `specification::answer` is invoked
and a produced answer is persisted with `update_answer` before the
submission starts; with no answer, or on pool or update failure, the tick
ends with `Ok` and no submission. -/
def answer_phase (env : AnswerEnv) (row : ActiveOracle) : AnswerOutcome :=
  match row.answer with
  | some a => submit_phase env row a
  | none =>
    match env.computed_answer with
    | none => ⟨true, some row, []⟩
    | some a =>
      if env.answer_conn_ok then
        if env.update_answer_ok then submit_phase env { row with answer := some a } a
        else ⟨true, some row, []⟩
      else ⟨true, some row, []⟩

/-- Model of `answer_active_oracle` (`src/answerer.rs`): skip immediately
when `answer_tx_hash` is set, otherwise check expiration (deleting an
expired row), compute or reuse the answer, submit and confirm. -/
def answer_active_oracle (env : AnswerEnv) (row : ActiveOracle) : AnswerOutcome :=
  match row.answer_tx_hash with
  | some _ => ⟨true, some row, []⟩
  | none =>
    match is_active_oracle_expired env row with
    | none => ⟨true, some row, []⟩
    | some (expired, row1) =>
      if expired then
        if env.expired_conn_ok then
          if env.delete_expired_ok then ⟨true, none, []⟩ else ⟨true, some row1, []⟩
        else ⟨true, some row1, []⟩
      else answer_phase env row1

/-- The updates delivered by the mibs scanner to `Listener::on_update`
(`src/listener.rs`): a new log (acknowledged, no checkpoint change here),
a completed past batch, the past-scanning completion signal, and a new
live block. -/
inductive MibsUpdate where
  | new_log
  | past_batch_completed (from_block to_block : Nat)
  | past_scanning_completed
  | new_block (block_number : Nat)
deriving DecidableEq, Repr

/-- The listener state relevant to checkpointing: the `scanning_past`
flag set by `Listener::new` and cleared by the completion signal. -/
structure ListenerState where
  scanning_past : Bool
deriving DecidableEq, Repr

/-- A checkpoint upsert issued through
`update_checkpoint_block_number`, tagged with which arm of `on_update`
issued it. -/
inductive CheckpointWrite where
  | past_batch (block_number : Int)
  | live_block (block_number : Int)
deriving DecidableEq, Repr

/-- Model of the Rust `as i64` cast applied to a `u64` block number when
it is written to the `Int8` checkpoint column. -/
def u64_as_i64 (n : Nat) : Int :=
  if n < 2 ^ 63 then (n : Int) else (n : Int) - 2 ^ 64

/-- Initial listener state: `Listener::new` sets `scanning_past: true`. -/
def listener_init : ListenerState := ⟨true⟩

/-- Model of `Listener::on_update` (`src/listener.rs`), restricted to its
checkpoint effects: past batches always issue an upsert at `to_block`, the
completion signal clears `scanning_past`, and a new block issues an upsert
only when `scanning_past` is already false. -/
def on_update (s : ListenerState) : MibsUpdate → ListenerState × List CheckpointWrite
  | MibsUpdate.new_log => (s, [])
  | MibsUpdate.past_batch_completed _ to_block =>
    (s, [CheckpointWrite.past_batch (u64_as_i64 to_block)])
  | MibsUpdate.past_scanning_completed => (⟨false⟩, [])
  | MibsUpdate.new_block n =>
    if s.scanning_past then (s, [])
    else (s, [CheckpointWrite.live_block (u64_as_i64 n)])

/-- Folds `on_update` over a sequence of updates, collecting the
checkpoint upserts issued along the way. -/
def run_listener (s : ListenerState) : List MibsUpdate → ListenerState × List CheckpointWrite
  | [] => (s, [])
  | u :: rest =>
    let step := on_update s u
    let next := run_listener step.1 rest
    (next.1, step.2 ++ next.2)

/-- Model of `rust_decimal::Decimal` as used by the tvl handler: an
integer mantissa (the source keeps it within 96 bits) and a decimal scale
(the source keeps it at most 28); the value is `mantissa / 10 ^ scale`. -/
structure Decimal where
  mantissa : Int
  scale : Nat
deriving DecidableEq, Repr

/-- Well-formedness of a `rust_decimal` value: 96-bit mantissa and scale
at most 28. -/
def Decimal.wf (d : Decimal) : Prop :=
  d.mantissa.natAbs < 2 ^ 96 ∧ d.scale ≤ 28

/-- The constant multiplier `Decimal::new(1e18 as i64, 0)` of
`TvlHandler::answer`: exactly `10 ^ 18` at scale 0 (the `f64` literal
`1e18` is exactly representable). -/
def decimal_1e18 : Decimal := ⟨10 ^ 18, 0⟩

/-- Overflow handling of `rust_decimal` multiplication: while the mantissa
does not fit into 96 bits, drop one decimal digit of scale at a time,
giving up when the scale reaches zero. In every multiplication this
program performs (a parsed decimal of scale at most 28 times `10 ^ 18` at
scale 0) the dropped digits are trailing zeros of the `10 ^ 18` factor, so
the truncating division used here is exact and no rounding behaviour of
the crate is exercised. -/
def reduce_scale_to_fit (m : Int) (s : Nat) : Option Decimal :=
  if m.natAbs < 2 ^ 96 then some ⟨m, s⟩
  else
    match s with
    | 0 => none
    | s2 + 1 => reduce_scale_to_fit (m.tdiv 10) s2
termination_by s

/-- Model of `Decimal::checked_mul`: multiply mantissas, add scales, then
fit the result into 96 bits, returning `None` on overflow. -/
def Decimal.checked_mul (a b : Decimal) : Option Decimal :=
  reduce_scale_to_fit (a.mantissa * b.mantissa) (a.scale + b.scale)

/-- Model of the `u128` conversion `scaled_tvl.try_into()` backed by
`rust_decimal`: fails on negative values, otherwise truncates the
fractional part toward zero; the result of a 96-bit mantissa always fits
`u128`. -/
def Decimal.try_into_u128 (d : Decimal) : Option Nat :=
  if d.mantissa < 0 then none
  else if d.mantissa.toNat / 10 ^ d.scale < 2 ^ 128 then
    some (d.mantissa.toNat / 10 ^ d.scale)
  else none

/-- Model of `TvlHandler::answer` (`src/specification/handlers/tvl.rs`)
applied to the decimal already fetched from the data provider: scale by
`10 ^ 18` with `checked_mul`, truncate to `u128`, widen to 256 bits. The
outer `none` models the propagated `anyhow` error, and the inner `Option`
is the `Option<U256>` of the variant contract (`tvl` never returns the
not-yet-ready `None`). -/
def TvlHandler_answer (raw_tvl : Decimal) : Option (Option Nat) :=
  match Decimal.checked_mul raw_tvl decimal_1e18 with
  | none => none
  | some scaled =>
    match scaled.try_into_u128 with
    | none => none
    | some converted => some (some converted)

/-- One attempt of the fetch closure of `fetch_specification_with_retry`
(`src/ipfs.rs`): request preparation failure, send failure, JSON
deserialization failure, or a parsed specification. -/
inductive IpfsAttempt where
  | prepare_failed
  | send_failed
  | parse_failed
  | success (spec : Specification)
deriving DecidableEq, Repr

/-- The `backoff` error classification produced by the fetch closure. -/
inductive BackoffClass where
  | transient
  | permanent
  | ok (spec : Specification)
deriving DecidableEq, Repr

/-- Classification performed by the fetch closure in `src/ipfs.rs`:
network-level failures are mapped to `backoff::Error::Transient`, a JSON
parse failure to `backoff::Error::Permanent`. -/
def classify_fetch_attempt : IpfsAttempt → BackoffClass
  | IpfsAttempt.prepare_failed => BackoffClass.transient
  | IpfsAttempt.send_failed => BackoffClass.transient
  | IpfsAttempt.parse_failed => BackoffClass.permanent
  | IpfsAttempt.success spec => BackoffClass.ok spec

/-- Result of the retry loop. -/
inductive RetryResult where
  | success (spec : Specification)
  | permanent_failure
  | timeout
  | exhausted
deriving DecidableEq, Repr

/-- The unused constant `FETCH_SPECIFICATION_JSON_MAX_ELAPSED_TIME`
declared in `src/commons.rs` (seconds). -/
def FETCH_SPECIFICATION_JSON_MAX_ELAPSED_TIME : Nat := 6

/-- The max-elapsed-time budget actually passed to
`ExponentialBackoffBuilder` by `fetch_specification_with_retry`
(`src/ipfs.rs`): the literal `Duration::from_secs(6_000)`. -/
def fetch_specification_max_elapsed_secs : Nat := 6000

/-- Model of `backoff::future::retry` with a max-elapsed-time budget: each
attempt is tagged with the wall-clock seconds elapsed since the first
attempt; a permanent error aborts at once, a transient error retries
unless the elapsed time has exceeded the budget. -/
def retry_with_max_elapsed (max_elapsed : Nat) :
    List (Nat × BackoffClass) → RetryResult
  | [] => RetryResult.exhausted
  | (elapsed, c) :: rest =>
    match c with
    | BackoffClass.ok spec => RetryResult.success spec
    | BackoffClass.permanent => RetryResult.permanent_failure
    | BackoffClass.transient =>
      if max_elapsed < elapsed then RetryResult.timeout
      else retry_with_max_elapsed max_elapsed rest

/-- Model of `fetch_specification_with_retry` (`src/ipfs.rs`) over a
sequence of timed gateway outcomes. -/
def fetch_specification_with_retry (attempts : List (Nat × IpfsAttempt)) : RetryResult :=
  retry_with_max_elapsed fetch_specification_max_elapsed_secs
    (attempts.map fun a => (a.1, classify_fetch_attempt a.2))

/-- Minimal JSON value model for the serde codec of `Specification`. -/
inductive Json where
  | str (s : String)
  | obj (fields : List (String × Json))

/-- Serialization of `TvlPayload` by serde derive: an object with the
single field `protocol`. -/
def serialize_tvl_payload (p : TvlPayload) : Json :=
  Json.obj [("protocol", Json.str p.protocol)]

/-- Serialization of `Specification` by serde with the attributes
`tag = "metric"`, `content = "payload"` and `rename_all = "camelCase"`
(`src/specification.rs`): the `Tvl` variant becomes the camelCase tag
string `tvl`. -/
def serialize_specification : Specification → Json
  | Specification.tvl p =>
    Json.obj [("metric", Json.str "tvl"), ("payload", serialize_tvl_payload p)]

/-- First-match field lookup in a JSON object. -/
def json_lookup : List (String × Json) → String → Option Json
  | [], _ => none
  | (k, v) :: rest, key => if k == key then some v else json_lookup rest key

/-- Deserialization of `TvlPayload`: requires an object carrying a string
field `protocol`. -/
def deserialize_tvl_payload (j : Json) : Option TvlPayload :=
  match j with
  | Json.obj fields =>
    match json_lookup fields "protocol" with
    | some (Json.str s) => some ⟨s⟩
    | _ => none
  | _ => none

/-- Deserialization of `Specification` per the adjacently-tagged serde
layout: an object whose `metric` field is a known camelCase tag and whose
`payload` field parses as that variant payload. -/
def deserialize_specification (j : Json) : Option Specification :=
  match j with
  | Json.obj fields =>
    match json_lookup fields "metric" with
    | some (Json.str "tvl") =>
      match json_lookup fields "payload" with
      | some payload => (deserialize_tvl_payload payload).map Specification.tvl
      | none => none
    | _ => none
  | _ => none

/-- The row-level invariant of the spec: a non-null `answer_tx_hash`
implies a non-null `answer`. -/
def tx_hash_implies_answer (row : ActiveOracle) : Prop :=
  row.answer_tx_hash ≠ none → row.answer ≠ none

/-- The rows reachable through the program: rows as inserted by
`ActiveOracle::create` (both `answer_tx_hash` and `answer` null), closed
under the row transformations performed by `answer_active_oracle`. -/
inductive ReachableRow : ActiveOracle → Prop where
  | created (address : Nat) (cid : Int) (ts : Nat) (spec : Specification) (exp : Nat) :
      ReachableRow ⟨address, cid, ts, spec, some exp, none, none⟩
  | answer_step (env : AnswerEnv) (row row2 : ActiveOracle) :
      ReachableRow row → (answer_active_oracle env row).row = some row2 →
      ReachableRow row2

/-- C1: for every row whose `answer_tx_hash` is non-null,
`answer_active_oracle` returns success immediately, submits no finalize
transaction, and neither modifies nor deletes the row. -/
theorem answer_tx_hash_guard_skips (env : AnswerEnv) (row : ActiveOracle) (h : Nat)
    (htx : row.answer_tx_hash = some h) :
    answer_active_oracle env row = ⟨true, some row, []⟩ := by
  unfold answer_active_oracle
  rw [htx]

theorem answer_tx_hash_guard_skips_witness :
    (⟨1, 1, 0, Specification.tvl ⟨"aave"⟩, some 10, some 77, some 5⟩ :
        ActiveOracle).answer_tx_hash = some 77 ∧
    answer_active_oracle
        ⟨0, none, true, true, true, true, none, true, true, true,
          SubmitOutcome.failed, true, true, true, none, true, true, true, true, true⟩
        ⟨1, 1, 0, Specification.tvl ⟨"aave"⟩, some 10, some 77, some 5⟩ =
      ⟨true, some ⟨1, 1, 0, Specification.tvl ⟨"aave"⟩, some 10, some 77, some 5⟩, []⟩ :=
  ⟨rfl, answer_tx_hash_guard_skips _ _ 77 rfl⟩

/-- C3 counterexample: a row whose `measurement_timestamp` equals the
current time is NOT returned by `get_all_answerable_for_chain_id`, because
the source filters with strict `lt`, contradicting the claim that such a
row is answerable and returned. -/
theorem get_all_answerable_boundary_counterexample :
    ActiveOracle.get_all_answerable_for_chain_id
        [⟨1, 1, 100, Specification.tvl ⟨"aave"⟩, some 200, none, none⟩] 1 100 =
      some [] ∧
    (⟨1, 1, 100, Specification.tvl ⟨"aave"⟩, some 200, none, none⟩ :
        ActiveOracle).measurement_timestamp ≤ 100 ∧
    (⟨1, 1, 100, Specification.tvl ⟨"aave"⟩, some 200, none, none⟩ :
        ActiveOracle).chain_id = 1 := by
  refine ⟨by decide, by decide, rfl⟩

/-- C3 (amended): `get_all_answerable_for_chain_id` returns exactly the
rows of the given chain whose `measurement_timestamp` is strictly less
than the current time; a row whose `measurement_timestamp` equals now is
not returned until the clock advances past it. -/
theorem get_all_answerable_exactly_strictly_past (db : List ActiveOracle)
    (chain_id now : Nat) (row : ActiveOracle) (hcid : chain_id < 2 ^ 31) :
    ∃ rows, ActiveOracle.get_all_answerable_for_chain_id db chain_id now = some rows ∧
      (row ∈ rows ↔ row ∈ db ∧ row.chain_id = Int.ofNat chain_id ∧
        row.measurement_timestamp < now) := by
  unfold ActiveOracle.get_all_answerable_for_chain_id i32_try_from_u64
  simp only [hcid, if_true]
  refine ⟨_, rfl, ?_⟩
  simp [List.mem_filter, and_assoc]

theorem get_all_answerable_exactly_strictly_past_witness :
    1 < 2 ^ 31 ∧
    ∃ rows, ActiveOracle.get_all_answerable_for_chain_id
        [⟨1, 1, 100, Specification.tvl ⟨"aave"⟩, some 200, none, none⟩] 1 101 =
          some rows ∧
      ((⟨1, 1, 100, Specification.tvl ⟨"aave"⟩, some 200, none, none⟩ :
          ActiveOracle) ∈ rows ↔
        (⟨1, 1, 100, Specification.tvl ⟨"aave"⟩, some 200, none, none⟩ :
          ActiveOracle) ∈
            [(⟨1, 1, 100, Specification.tvl ⟨"aave"⟩, some 200, none, none⟩ :
              ActiveOracle)] ∧
        (⟨1, 1, 100, Specification.tvl ⟨"aave"⟩, some 200, none, none⟩ :
          ActiveOracle).chain_id = Int.ofNat 1 ∧
        (⟨1, 1, 100, Specification.tvl ⟨"aave"⟩, some 200, none, none⟩ :
          ActiveOracle).measurement_timestamp < 101) :=
  ⟨by norm_num,
    get_all_answerable_exactly_strictly_past
      [⟨1, 1, 100, Specification.tvl ⟨"aave"⟩, some 200, none, none⟩] 1 101
      ⟨1, 1, 100, Specification.tvl ⟨"aave"⟩, some 200, none, none⟩ (by norm_num)⟩

/-- C4 counterexample: replaying an acknowledgement whose row already
exists makes `acknowledge_active_oracle` return an error (`ok = false`),
contradicting the claim that the duplicate is treated as success; the
existing row is left unchanged. -/
theorem acknowledge_duplicate_counterexample :
    acknowledge_active_oracle ⟨some (Specification.tvl ⟨"aave"⟩), true, true, false, true⟩
        1 ⟨1, 50, "bafy", 200⟩
        [⟨1, 1, 50, Specification.tvl ⟨"aave"⟩, some 200, none, none⟩] =
      some ⟨false, [⟨1, 1, 50, Specification.tvl ⟨"aave"⟩, some 200, none, none⟩]⟩ := by
  decide

/-- C4 (amended): when the insert hits a duplicate `(address, chain_id)`
key, `ActiveOracle::create` fails with the unique-violation error and
`acknowledge_active_oracle` propagates it as an error return (its caller
merely logs it); every field of the existing row is left unchanged. -/
theorem acknowledge_duplicate_returns_error (env : AckEnv) (chain_id : Nat)
    (data : DefiLlamaOracleData) (db : List ActiveOracle) (spec : Specification)
    (hfetch : env.fetched_specification = some spec)
    (hvalid : env.validation_result = true)
    (hconn : env.db_conn_ok = true)
    (hcid : chain_id < 2 ^ 31)
    (hdup : (db.any fun row =>
        row.address == data.address && row.chain_id == Int.ofNat chain_id) = true) :
    acknowledge_active_oracle env chain_id data db = some ⟨false, db⟩ := by
  have hdup2 : ∃ x ∈ db, x.address = data.address ∧ x.chain_id = (chain_id : Int) := by
    simpa using hdup
  have hcid2 : chain_id < 2147483648 := lt_of_lt_of_le hcid (by norm_num)
  unfold acknowledge_active_oracle ActiveOracle.create i32_try_from_u64
  simp [hfetch, hvalid, hconn, hcid2, hdup2]

theorem acknowledge_duplicate_returns_error_witness :
    (⟨some (Specification.tvl ⟨"aave"⟩), true, true, false, true⟩ :
        AckEnv).fetched_specification = some (Specification.tvl ⟨"aave"⟩) ∧
    (⟨some (Specification.tvl ⟨"aave"⟩), true, true, false, true⟩ :
        AckEnv).validation_result = true ∧
    (⟨some (Specification.tvl ⟨"aave"⟩), true, true, false, true⟩ :
        AckEnv).db_conn_ok = true ∧
    1 < 2 ^ 31 ∧
    ([(⟨1, 1, 50, Specification.tvl ⟨"aave"⟩, some 200, none, none⟩ : ActiveOracle)].any
      fun row => row.address == (⟨1, 50, "bafy", 200⟩ :
        DefiLlamaOracleData).address && row.chain_id == Int.ofNat 1) = true ∧
    acknowledge_active_oracle ⟨some (Specification.tvl ⟨"aave"⟩), true, true, false, true⟩
        1 ⟨1, 50, "bafy", 200⟩
        [⟨1, 1, 50, Specification.tvl ⟨"aave"⟩, some 200, none, none⟩] =
      some ⟨false, [⟨1, 1, 50, Specification.tvl ⟨"aave"⟩, some 200, none, none⟩]⟩ :=
  ⟨rfl, rfl, rfl, by norm_num, by decide,
    acknowledge_duplicate_returns_error _ 1 _ _ (Specification.tvl ⟨"aave"⟩) rfl rfl rfl
      (by norm_num) (by decide)⟩

/-- C8: the retry loop around the specification fetch classifies network
errors as transient (retried) and JSON-parse errors as permanent
(aborting at once), but its max-elapsed-time budget is the literal 6000
seconds of `src/ipfs.rs`, not the 6 seconds of the unused
`FETCH_SPECIFICATION_JSON_MAX_ELAPSED_TIME` constant: transient failures
well past 6 seconds of elapsed time are still retried, and the loop only
gives up once the elapsed time exceeds 6000 seconds. -/
theorem fetch_specification_retry_budget_and_classification :
    fetch_specification_max_elapsed_secs = 6000 ∧
    FETCH_SPECIFICATION_JSON_MAX_ELAPSED_TIME = 6 ∧
    fetch_specification_with_retry
        [(0, IpfsAttempt.prepare_failed), (7, IpfsAttempt.send_failed),
          (3000, IpfsAttempt.success (Specification.tvl ⟨"aave"⟩))] =
      RetryResult.success (Specification.tvl ⟨"aave"⟩) ∧
    fetch_specification_with_retry [(0, IpfsAttempt.parse_failed)] =
      RetryResult.permanent_failure ∧
    fetch_specification_with_retry
        [(0, IpfsAttempt.send_failed), (6001, IpfsAttempt.send_failed)] =
      RetryResult.timeout := by
  refine ⟨rfl, rfl, by decide, by decide, by decide⟩

/-- C9: serializing a `Specification` yields an object of the shape
`metric`-tag plus `payload`-object with the camelCase tag `tvl` (the aave
example serializes exactly as documented), and deserializing the
serialized form gives back the original value for every variant. -/
theorem specification_json_round_trip (s : Specification) :
    (∃ payload_fields, serialize_specification s =
        Json.obj [("metric", Json.str "tvl"), ("payload", Json.obj payload_fields)]) ∧
    serialize_specification (Specification.tvl ⟨"aave"⟩) =
      Json.obj [("metric", Json.str "tvl"),
        ("payload", Json.obj [("protocol", Json.str "aave")])] ∧
    deserialize_specification (serialize_specification s) = some s := by
  cases s with
  | tvl p => exact ⟨⟨[("protocol", Json.str p.protocol)], rfl⟩, rfl, rfl⟩

/-- C10: for every chain id above `i32::MAX = 2^31 - 1` (the
configuration accepts any `u64`), `ActiveOracle::create`,
`ActiveOracle::get_all_answerable_for_chain_id` and `Checkpoint::update`
panic on the chain-id `unwrap` instead of returning an error. -/
theorem chain_id_overflow_panics (chain_id : Nat) (hbig : 2 ^ 31 - 1 < chain_id)
    (db : List ActiveOracle) (cps : List Checkpoint) (address ts exp now : Nat)
    (spec : Specification) (bn : Int) :
    ActiveOracle.create db address chain_id ts spec exp = none ∧
    ActiveOracle.get_all_answerable_for_chain_id db chain_id now = none ∧
    Checkpoint.update cps chain_id bn = none := by
  have h : i32_try_from_u64 chain_id = none := by
    unfold i32_try_from_u64
    rw [if_neg (by omega)]
  refine ⟨?_, ?_, ?_⟩ <;>
    simp [ActiveOracle.create, ActiveOracle.get_all_answerable_for_chain_id,
      Checkpoint.update, h]

theorem chain_id_overflow_panics_witness :
    2 ^ 31 - 1 < 2 ^ 31 ∧
    ActiveOracle.create [] 1 (2 ^ 31) 0 (Specification.tvl ⟨"aave"⟩) 1 = none ∧
    ActiveOracle.get_all_answerable_for_chain_id [] (2 ^ 31) 0 = none ∧
    Checkpoint.update [] (2 ^ 31) 0 = none := by
  have h := chain_id_overflow_panics (2 ^ 31) (by norm_num) [] [] 1 0 1 0
    (Specification.tvl ⟨"aave"⟩) 0
  exact ⟨by norm_num, h.1, h.2.1, h.2.2⟩

theorem confirm_phase_preserves_invariant (env : AnswerEnv) (row : ActiveOracle)
    (sub : List Nat) (r2 : ActiveOracle) (hrow : tx_hash_implies_answer row)
    (h : (confirm_phase env row sub).row = some r2) : tx_hash_implies_answer r2 := by
  unfold confirm_phase delete_phase at h
  repeat' split at h
  all_goals try simp at h
  all_goals try subst h
  all_goals simp_all [tx_hash_implies_answer]

theorem submit_phase_preserves_invariant (env : AnswerEnv) (row : ActiveOracle)
    (a : Nat) (r2 : ActiveOracle) (hans : row.answer ≠ none)
    (h : (submit_phase env row a).row = some r2) : tx_hash_implies_answer r2 := by
  unfold submit_phase at h
  repeat' split at h
  all_goals first
    | exact confirm_phase_preserves_invariant _ _ _ _ (by intro _; simpa using hans) h
    | (try simp at h
       try subst h
       simp_all [tx_hash_implies_answer])

theorem answer_phase_preserves_invariant (env : AnswerEnv) (row : ActiveOracle)
    (r2 : ActiveOracle) (hrow : tx_hash_implies_answer row)
    (h : (answer_phase env row).row = some r2) : tx_hash_implies_answer r2 := by
  unfold answer_phase at h
  repeat' split at h
  all_goals first
    | exact submit_phase_preserves_invariant _ _ _ _ (by simp_all) h
    | (try simp at h
       try subst h
       simp_all [tx_hash_implies_answer])

theorem is_active_oracle_expired_fields (env : AnswerEnv) (row : ActiveOracle)
    (b : Bool) (r1 : ActiveOracle) (h : is_active_oracle_expired env row = some (b, r1)) :
    r1.answer_tx_hash = row.answer_tx_hash ∧ r1.answer = row.answer := by
  unfold is_active_oracle_expired at h
  repeat' split at h
  all_goals try simp at h
  all_goals try (obtain ⟨h1, h2⟩ := h; subst h2)
  all_goals simp_all

theorem answer_active_oracle_preserves_invariant (env : AnswerEnv) (row : ActiveOracle)
    (r2 : ActiveOracle) (hrow : tx_hash_implies_answer row)
    (h : (answer_active_oracle env row).row = some r2) : tx_hash_implies_answer r2 := by
  unfold answer_active_oracle at h
  split at h
  case _ => simp at h; subst h; exact hrow
  case _ =>
    split at h
    case _ => simp at h; subst h; exact hrow
    case _ b r1 heq =>
      have hf := is_active_oracle_expired_fields env row b r1 heq
      have hr1 : tx_hash_implies_answer r1 := by
        intro hx
        rw [hf.2]
        exact hrow (hf.1 ▸ hx)
      split at h
      case _ =>
        repeat' split at h
        all_goals try simp at h
        all_goals try subst h
        all_goals simp_all
      case _ => exact answer_phase_preserves_invariant _ _ _ hr1 h

/-- C2: every row reachable through the program (created by
`ActiveOracle::create` with both nullable answer fields null, then
transformed only by the answer procedure, which persists the answer with
`update_answer` before `update_answer_tx_hash` ever runs and whose
clearing touches only `answer_tx_hash`) satisfies the invariant that a
non-null `answer_tx_hash` implies a non-null `answer`. -/
theorem reachable_row_invariant (row : ActiveOracle) (h : ReachableRow row) :
    tx_hash_implies_answer row := by
  induction h with
  | created address cid ts spec exp => intro hx; simp at hx
  | answer_step env r r2 hr hstep ih =>
    exact answer_active_oracle_preserves_invariant env r r2 ih hstep

theorem reachable_row_invariant_witness :
    ReachableRow ⟨1, 1, 0, Specification.tvl ⟨"aave"⟩, some 10, none, none⟩ ∧
    tx_hash_implies_answer ⟨1, 1, 0, Specification.tvl ⟨"aave"⟩, some 10, none, none⟩ :=
  ⟨ReachableRow.created 1 1 0 (Specification.tvl ⟨"aave"⟩) 10,
    reachable_row_invariant _ (ReachableRow.created 1 1 0 (Specification.tvl ⟨"aave"⟩) 10)⟩

/-- C6: when the procedure has submitted `finalize` and persisted the tx
hash but awaiting confirmation fails, then if clearing succeeds the
procedure returns `Ok` with `answer_tx_hash` back to null (the next tick
can retry), and if the clearing (pool acquisition or update) fails the
error propagates out of the procedure while the row keeps its non-null
`answer_tx_hash`, so every later run skips it unchanged until manual
intervention. -/
theorem confirm_failure_clears_or_wedges (env : AnswerEnv) (row : ActiveOracle)
    (e a h : Nat)
    (h1 : row.answer_tx_hash = none)
    (h2 : row.expiration = some e)
    (h3 : env.now < e)
    (h4 : row.answer = some a)
    (h5 : env.fill_ok = true)
    (h6 : env.submit = SubmitOutcome.sent h)
    (h7 : env.tx_hash_conn_ok = true)
    (h8 : env.update_tx_hash_ok = true)
    (h9 : env.confirm_ok = false) :
    (env.clear_conn_ok = true → env.clear_tx_hash_ok = true →
      answer_active_oracle env row =
        ⟨true, some { row with answer_tx_hash := none }, [a]⟩) ∧
    ((env.clear_conn_ok = false ∨ env.clear_tx_hash_ok = false) →
      (answer_active_oracle env row).ok = false ∧
      (answer_active_oracle env row).row = some { row with answer_tx_hash := some h } ∧
      (∀ env2, answer_active_oracle env2 { row with answer_tx_hash := some h } =
        ⟨true, some { row with answer_tx_hash := some h }, []⟩)) := by
  have hrun : answer_active_oracle env row =
      confirm_phase env { row with answer_tx_hash := some h } [a] := by
    unfold answer_active_oracle is_active_oracle_expired answer_phase submit_phase
    simp [h1, h2, h4, h5, h6, h7, h8, not_le.mpr h3]
  constructor
  · intro hc1 hc2
    rw [hrun]
    unfold confirm_phase
    simp [h9, hc1, hc2]
  · intro hcase
    have hwedge : confirm_phase env { row with answer_tx_hash := some h } [a] =
        ⟨false, some { row with answer_tx_hash := some h }, [a]⟩ := by
      unfold confirm_phase
      rcases hcase with hc | hc
      · simp [h9, hc]
      · by_cases hcc : env.clear_conn_ok <;> simp [h9, hc, hcc]
    refine ⟨by rw [hrun, hwedge], by rw [hrun, hwedge], ?_⟩
    intro env2
    rfl

theorem confirm_failure_clears_or_wedges_witness :
    ((⟨1, 1, 0, Specification.tvl ⟨"aave"⟩, some 10, none, some 5⟩ :
        ActiveOracle).answer_tx_hash = none) ∧
    ((⟨0, none, true, true, true, true, none, true, true, true,
        SubmitOutcome.sent 9, true, true, false, none, true, false, true, true, true⟩ :
        AnswerEnv).confirm_ok = false) ∧
    (answer_active_oracle
        ⟨0, none, true, true, true, true, none, true, true, true,
          SubmitOutcome.sent 9, true, true, false, none, true, false, true, true, true⟩
        ⟨1, 1, 0, Specification.tvl ⟨"aave"⟩, some 10, none, some 5⟩).ok = false ∧
    (answer_active_oracle
        ⟨0, none, true, true, true, true, none, true, true, true,
          SubmitOutcome.sent 9, true, true, false, none, true, false, true, true, true⟩
        ⟨1, 1, 0, Specification.tvl ⟨"aave"⟩, some 10, none, some 5⟩).row =
      some ⟨1, 1, 0, Specification.tvl ⟨"aave"⟩, some 10, some 9, some 5⟩ ∧
    answer_active_oracle
        ⟨0, none, true, true, true, true, none, true, true, true,
          SubmitOutcome.sent 9, true, true, false, none, true, false, true, true, true⟩
        ⟨1, 1, 0, Specification.tvl ⟨"aave"⟩, some 10, some 9, some 5⟩ =
      ⟨true, some ⟨1, 1, 0, Specification.tvl ⟨"aave"⟩, some 10, some 9, some 5⟩, []⟩ := by
  have h := confirm_failure_clears_or_wedges
    ⟨0, none, true, true, true, true, none, true, true, true,
      SubmitOutcome.sent 9, true, true, false, none, true, false, true, true, true⟩
    ⟨1, 1, 0, Specification.tvl ⟨"aave"⟩, some 10, none, some 5⟩
    10 5 9 rfl rfl (by norm_num) rfl rfl rfl rfl rfl rfl
  have h2 := h.2 (Or.inl rfl)
  exact ⟨rfl, rfl, h2.1, h2.2.1, h2.2.2 _⟩

theorem run_listener_append (s : ListenerState) (us1 us2 : List MibsUpdate) :
    run_listener s (us1 ++ us2) =
      ((run_listener (run_listener s us1).1 us2).1,
        (run_listener s us1).2 ++ (run_listener (run_listener s us1).1 us2).2) := by
  induction us1 generalizing s with
  | nil => simp [run_listener]
  | cons u rest ih => simp [run_listener, ih, List.append_assoc]

theorem run_listener_no_signal (us : List MibsUpdate)
    (hno : MibsUpdate.past_scanning_completed ∉ us) :
    (run_listener ⟨true⟩ us).1 = ⟨true⟩ ∧
    ∀ v, CheckpointWrite.live_block v ∉ (run_listener ⟨true⟩ us).2 := by
  induction us with
  | nil => simp [run_listener]
  | cons u rest ih =>
    have hu : u ≠ MibsUpdate.past_scanning_completed := fun hx => hno (hx ▸ List.mem_cons_self u rest)
    have hrest : MibsUpdate.past_scanning_completed ∉ rest :=
      fun hx => hno (List.mem_cons_of_mem u hx)
    have ihr := ih hrest
    cases u with
    | new_log => simpa [run_listener, on_update] using ihr
    | past_batch_completed fb tb =>
      refine ⟨by simpa [run_listener, on_update] using ihr.1, ?_⟩
      intro v hv
      simp [run_listener, on_update] at hv
      exact ihr.2 v (by simpa using hv)
    | past_scanning_completed => exact absurd rfl hu
    | new_block n => simpa [run_listener, on_update] using ihr

theorem on_update_stays_done (s : ListenerState) (u : MibsUpdate)
    (hs : s.scanning_past = false) : ((on_update s u).1).scanning_past = false := by
  cases u <;> simp [on_update, hs]

theorem run_listener_after_signal (s : ListenerState) (us : List MibsUpdate)
    (hs : s.scanning_past = false) :
    ∀ n, MibsUpdate.new_block n ∈ us →
      CheckpointWrite.live_block (u64_as_i64 n) ∈ (run_listener s us).2 := by
  induction us generalizing s with
  | nil => intro n hn; simp at hn
  | cons u rest ih =>
    intro n hn
    rcases List.mem_cons.mp hn with heq | hmem
    · subst heq
      simp [run_listener, on_update, hs]
    · have := ih (on_update s u).1 (on_update_stays_done s u hs) n hmem
      simp [run_listener]
      right
      exact this

/-- C7: before the past-scanning completion signal is processed, the
listener issues no live-block checkpoint upsert (only past batches write
the checkpoint); once the signal has been processed, every subsequent new
block issues an upsert carrying that block number (through the `as i64`
cast, which is the identity for block numbers below `2 ^ 63`). -/
theorem live_checkpoint_gated_by_past_completion (us us1 us2 : List MibsUpdate) :
    (MibsUpdate.past_scanning_completed ∉ us →
      ∀ v, CheckpointWrite.live_block v ∉ (run_listener listener_init us).2) ∧
    (us = us1 ++ MibsUpdate.past_scanning_completed :: us2 →
      ∀ n, MibsUpdate.new_block n ∈ us2 →
        CheckpointWrite.live_block (u64_as_i64 n) ∈ (run_listener listener_init us).2) ∧
    (∀ n, n < 2 ^ 63 → u64_as_i64 n = Int.ofNat n) := by
  refine ⟨fun hno => (run_listener_no_signal us hno).2, ?_, ?_⟩
  · intro heq n hn
    subst heq
    rw [run_listener_append]
    apply List.mem_append_right
    have hstep : run_listener (run_listener listener_init us1).1
        (MibsUpdate.past_scanning_completed :: us2) =
        ((run_listener ⟨false⟩ us2).1, [] ++ (run_listener ⟨false⟩ us2).2) := by
      simp [run_listener, on_update]
    rw [hstep]
    simpa using run_listener_after_signal ⟨false⟩ us2 rfl n hn
  · intro n hn
    unfold u64_as_i64
    rw [if_pos hn]
    rfl

theorem live_checkpoint_gated_by_past_completion_witness :
    (CheckpointWrite.live_block (u64_as_i64 5) ∉
      (run_listener listener_init [MibsUpdate.new_block 5]).2) ∧
    (CheckpointWrite.live_block (u64_as_i64 7) ∈
      (run_listener listener_init
        ([MibsUpdate.new_block 5] ++ MibsUpdate.past_scanning_completed ::
          [MibsUpdate.new_block 7])).2) ∧
    u64_as_i64 7 = Int.ofNat 7 :=
  ⟨(live_checkpoint_gated_by_past_completion [MibsUpdate.new_block 5] [] []).1
      (by decide) (u64_as_i64 5),
    (live_checkpoint_gated_by_past_completion
        ([MibsUpdate.new_block 5] ++ MibsUpdate.past_scanning_completed ::
          [MibsUpdate.new_block 7])
        [MibsUpdate.new_block 5] [MibsUpdate.new_block 7]).2.1 rfl 7 (by decide),
    (live_checkpoint_gated_by_past_completion [] [] []).2.2 7 (by norm_num)⟩

theorem reduce_scale_to_fit_spec (s : Nat) :
    ∀ (j : Nat) (m : Int), j ≤ 18 → m.natAbs < 2 ^ 96 →
      (∀ r, reduce_scale_to_fit (m * 10 ^ j) s = some r →
        ∃ t, t ≤ j ∧ t ≤ s ∧ r = ⟨m * 10 ^ (j - t), s - t⟩ ∧
          (m * 10 ^ (j - t)).natAbs < 2 ^ 96) ∧
      (reduce_scale_to_fit (m * 10 ^ j) s = none →
        s < j ∧ 2 ^ 96 ≤ m.natAbs * 10 ^ (j - s)) := by
  induction s with
  | zero =>
    intro j m hj hm
    constructor
    · intro r hr
      rw [reduce_scale_to_fit] at hr
      split at hr
      case isTrue hfit =>
        injection hr with hr2
        refine ⟨0, Nat.zero_le _, le_refl 0, ?_, ?_⟩
        · rw [← hr2]; simp
        · simpa using hfit
      case isFalse hfit => simp at hr
    · intro hr
      rw [reduce_scale_to_fit] at hr
      split at hr
      case isTrue hfit => simp at hr
      case isFalse hfit =>
        have hma : (m * 10 ^ j).natAbs = m.natAbs * 10 ^ j := by
          rw [Int.natAbs_mul, Int.natAbs_pow]
          rfl
        have hjpos : 0 < j := by
          rcases Nat.eq_zero_or_pos j with h0 | hpos
          · subst h0
            simp at hfit
            exact absurd hm (by omega)
          · exact hpos
        refine ⟨hjpos, ?_⟩
        rw [Nat.sub_zero, ← hma]
        omega
  | succ s2 ih =>
    intro j m hj hm
    constructor
    · intro r hr
      rw [reduce_scale_to_fit] at hr
      split at hr
      case isTrue hfit =>
        injection hr with hr2
        refine ⟨0, Nat.zero_le _, Nat.zero_le _, ?_, ?_⟩
        · rw [← hr2]; simp
        · simpa using hfit
      case isFalse hfit =>
        have hjpos : 0 < j := by
          rcases Nat.eq_zero_or_pos j with h0 | hpos
          · subst h0
            simp at hfit
            exact absurd hm (by omega)
          · exact hpos
        have hdiv : (m * 10 ^ j).tdiv 10 = m * 10 ^ (j - 1) := by
          have hsplit : m * 10 ^ j = m * 10 ^ (j - 1) * 10 := by
            rw [mul_assoc, ← pow_succ]
            congr 2
            omega
          rw [hsplit, Int.mul_tdiv_cancel _ (by norm_num)]
        rw [hdiv] at hr
        obtain ⟨hsome, _⟩ := ih (j - 1) m (by omega) hm
        obtain ⟨t, ht1, ht2, htr, htfit⟩ := hsome r hr
        have he1 : j - 1 - t = j - (t + 1) := by omega
        have he2 : s2 - t = s2 + 1 - (t + 1) := by omega
        refine ⟨t + 1, by omega, by omega, ?_, ?_⟩
        · rw [htr, he1, he2]
        · rw [← he1]; exact htfit
    · intro hr
      rw [reduce_scale_to_fit] at hr
      split at hr
      case isTrue hfit => simp at hr
      case isFalse hfit =>
        have hjpos : 0 < j := by
          rcases Nat.eq_zero_or_pos j with h0 | hpos
          · subst h0
            simp at hfit
            exact absurd hm (by omega)
          · exact hpos
        have hdiv : (m * 10 ^ j).tdiv 10 = m * 10 ^ (j - 1) := by
          have hsplit : m * 10 ^ j = m * 10 ^ (j - 1) * 10 := by
            rw [mul_assoc, ← pow_succ]
            congr 2
            omega
          rw [hsplit, Int.mul_tdiv_cancel _ (by norm_num)]
        rw [hdiv] at hr
        obtain ⟨_, hnone⟩ := ih (j - 1) m (by omega) hm
        obtain ⟨hlt, hge⟩ := hnone hr
        have he1 : j - 1 - s2 = j - (s2 + 1) := by omega
        exact ⟨by omega, by rw [← he1]; exact hge⟩

theorem try_into_u128_of_nonneg (M : Int) (S : Nat) (h0 : 0 ≤ M)
    (hb : M.toNat / 10 ^ S < 2 ^ 128) :
    Decimal.try_into_u128 ⟨M, S⟩ = some (M.toNat / 10 ^ S) := by
  show (if M < 0 then none
    else if M.toNat / 10 ^ S < 2 ^ 128 then some (M.toNat / 10 ^ S) else none) =
    some (M.toNat / 10 ^ S)
  rw [if_neg (not_lt.mpr h0), if_pos hb]

theorem try_into_u128_of_neg (M : Int) (S : Nat) (h0 : M < 0) :
    Decimal.try_into_u128 ⟨M, S⟩ = none := by
  show (if M < 0 then none
    else if M.toNat / 10 ^ S < 2 ^ 128 then some (M.toNat / 10 ^ S) else none) = none
  rw [if_pos h0]

/-- C5: for a well-formed decimal `d` fetched from the data provider, the
tvl answerer returns the value of `d` scaled by `10 ^ 18` and truncated
toward zero (fitting an unsigned 128-bit integer and hence the 256-bit
answer) whenever that scaled value is representable, and returns an error
whenever it is not: on overflow of the 96-bit decimal mantissa after
scaling, and on a negative value that cannot be truncated to `u128`. -/
theorem tvl_answer_scales_and_truncates (d : Decimal) (hwf : d.wf) :
    (0 ≤ d.mantissa →
      ((18 ≤ d.scale ∨ d.mantissa.natAbs * 10 ^ (18 - d.scale) < 2 ^ 96) →
        TvlHandler_answer d =
          some (some (d.mantissa.toNat * 10 ^ 18 / 10 ^ d.scale)) ∧
        d.mantissa.toNat * 10 ^ 18 / 10 ^ d.scale < 2 ^ 128) ∧
      (d.scale < 18 → 2 ^ 96 ≤ d.mantissa.natAbs * 10 ^ (18 - d.scale) →
        TvlHandler_answer d = none)) ∧
    (d.mantissa < 0 → TvlHandler_answer d = none) := by
  obtain ⟨hm, hs⟩ := hwf
  have hspec := reduce_scale_to_fit_spec d.scale 18 d.mantissa (le_refl 18) hm
  have hcm : Decimal.checked_mul d decimal_1e18 =
      reduce_scale_to_fit (d.mantissa * 10 ^ 18) d.scale := rfl
  constructor
  · intro hnonneg
    constructor
    · intro hrep
      cases hred : reduce_scale_to_fit (d.mantissa * 10 ^ 18) d.scale with
      | none =>
        obtain ⟨hlt, hge⟩ := hspec.2 hred
        rcases hrep with h18 | hsmall
        · omega
        · exact absurd hsmall (not_lt.mpr hge)
      | some r =>
        obtain ⟨t, ht1, ht2, htr, htfit⟩ := hspec.1 r hred
        subst htr
        have hz : (0:Int) ≤ d.mantissa * 10 ^ (18 - t) :=
          mul_nonneg hnonneg (by positivity)
        have h1 : (d.mantissa * 10 ^ (18 - t)).natAbs =
            d.mantissa.natAbs * 10 ^ (18 - t) := by
          rw [Int.natAbs_mul, Int.natAbs_pow]
          rfl
        rw [h1] at htfit
        have htoNat : (d.mantissa * 10 ^ (18 - t)).toNat =
            d.mantissa.natAbs * 10 ^ (18 - t) := by omega
        have hmtoNat : d.mantissa.toNat = d.mantissa.natAbs := by omega
        have hdiv : d.mantissa.natAbs * 10 ^ (18 - t) / 10 ^ (d.scale - t) =
            d.mantissa.natAbs * 10 ^ 18 / 10 ^ d.scale := by
          have e18 : 18 - t + t = 18 := by omega
          have esc : d.scale - t + t = d.scale := by omega
          calc d.mantissa.natAbs * 10 ^ (18 - t) / 10 ^ (d.scale - t)
              = d.mantissa.natAbs * 10 ^ (18 - t) * 10 ^ t /
                  (10 ^ (d.scale - t) * 10 ^ t) := by
                rw [Nat.mul_div_mul_right _ _ (by positivity)]
            _ = d.mantissa.natAbs * 10 ^ 18 / 10 ^ d.scale := by
                rw [mul_assoc, ← pow_add, ← pow_add, e18, esc]
        have hboundval : d.mantissa.natAbs * 10 ^ 18 / 10 ^ d.scale < 2 ^ 128 := by
          rw [← hdiv]
          calc d.mantissa.natAbs * 10 ^ (18 - t) / 10 ^ (d.scale - t)
              ≤ d.mantissa.natAbs * 10 ^ (18 - t) := Nat.div_le_self _ _
            _ < 2 ^ 96 := htfit
            _ < 2 ^ 128 := by norm_num
        have hb2 : (d.mantissa * 10 ^ (18 - t)).toNat / 10 ^ (d.scale - t) < 2 ^ 128 := by
          rw [htoNat, hdiv]
          exact hboundval
        have htry : Decimal.try_into_u128 ⟨d.mantissa * 10 ^ (18 - t), d.scale - t⟩ =
            some (d.mantissa.toNat * 10 ^ 18 / 10 ^ d.scale) := by
          rw [try_into_u128_of_nonneg _ _ hz hb2, htoNat, hdiv, hmtoNat]
        constructor
        · unfold TvlHandler_answer
          simp only [hcm, hred, htry]
        · rw [hmtoNat]
          exact hboundval
    · intro hlt18 hge
      cases hred : reduce_scale_to_fit (d.mantissa * 10 ^ 18) d.scale with
      | none =>
        unfold TvlHandler_answer
        simp only [hcm, hred]
      | some r =>
        obtain ⟨t, ht1, ht2, htr, htfit⟩ := hspec.1 r hred
        subst htr
        exfalso
        have hpow : 10 ^ (18 - d.scale) ≤ 10 ^ (18 - t) :=
          Nat.pow_le_pow_right (by norm_num) (by omega)
        have h1 : (d.mantissa * 10 ^ (18 - t)).natAbs =
            d.mantissa.natAbs * 10 ^ (18 - t) := by
          rw [Int.natAbs_mul, Int.natAbs_pow]
          rfl
        rw [h1] at htfit
        have hchain : 2 ^ 96 ≤ d.mantissa.natAbs * 10 ^ (18 - t) :=
          le_trans hge (Nat.mul_le_mul (le_refl _) hpow)
        exact absurd htfit (not_lt.mpr hchain)
  · intro hneg
    cases hred : reduce_scale_to_fit (d.mantissa * 10 ^ 18) d.scale with
    | none =>
      unfold TvlHandler_answer
      simp only [hcm, hred]
    | some r =>
      obtain ⟨t, ht1, ht2, htr, htfit⟩ := hspec.1 r hred
      subst htr
      have hmn : d.mantissa * 10 ^ (18 - t) < 0 :=
        mul_neg_of_neg_of_pos hneg (by positivity)
      have htryn : Decimal.try_into_u128
          ⟨d.mantissa * 10 ^ (18 - t), d.scale - t⟩ = none :=
        try_into_u128_of_neg _ _ hmn
      unfold TvlHandler_answer
      simp only [hcm, hred, htryn]

theorem tvl_answer_scales_and_truncates_witness :
    (⟨12345678, 4⟩ : Decimal).wf ∧
    0 ≤ (⟨12345678, 4⟩ : Decimal).mantissa ∧
    (⟨12345678, 4⟩ : Decimal).mantissa.natAbs *
      10 ^ (18 - (⟨12345678, 4⟩ : Decimal).scale) < 2 ^ 96 ∧
    TvlHandler_answer ⟨12345678, 4⟩ = some (some 1234567800000000000000) := by
  have hwf : (⟨12345678, 4⟩ : Decimal).wf := by
    constructor
    · norm_num
    · norm_num
  have h := ((tvl_answer_scales_and_truncates ⟨12345678, 4⟩ hwf).1
    (by norm_num)).1 (Or.inr (by norm_num))
  refine ⟨hwf, by norm_num, by norm_num, ?_⟩
  rw [h.1]
  decide

end DefillamaAnswerer
